import Mathlib

/-!
Verification development for the NCAA NEXT textures downloader.

The development shallowly embeds two layers of the application:

* the reconciliation engine (path classification, full-sync planning and
  the executor's touched-path sets), modelled from the specification since
  the Rust backend sources are not part of the corpus; and
* the frontend orchestration (`SyncTab.tsx` handlers `handleRunSync`,
  `executeAnalyzedSync`, `finishSync`, `checkSyncStatus`,
  `handleWarningConfirm`, `handleWarningCancel`, and the `App` component's
  `handleSyncComplete`, `handleSetupToggle`, `fetchAppInfo` and render
  decision), translated directly from the TypeScript sources.

Frontend handlers are embedded as pure functions producing the ordered list
of actions (backend invocations, state updates, callback notifications) the
handler performs, parameterised by the results the backend returns for each
invocation.  Component state is the fold of those actions.
-/

namespace TexSync

/-! ## Engine path model

Modelled from the spec: a path segment is a character list, the disable
marker is a single leading dash on the final path segment, and the
exclusion subtree is a fixed folder (a directory-path prefix) inside the
managed root.  A file path splits into its directory segments and its
file-name segment, since only the file name can carry the disable marker. -/

/-- A path segment (directory or file name), as the list of its characters. -/
abbrev Seg := List Char

/-- A file path under the managed root: directory segments plus file name. -/
structure FPath where
  dirs : List Seg
  file : Seg
deriving DecidableEq, Repr

/-- Modelled from the spec: `dir` is a prefix of the directory list `ds`,
so that the paths inside the folder `dir` are exactly those whose
directory list extends `dir`. -/
def dirLeads : List Seg → List Seg → Bool
  | [], _ => true
  | _ :: _, [] => false
  | a :: as, b :: bs => a = b && dirLeads as bs

/-- Modelled from the spec: a path lies under the exclusion subtree `excl`
iff `excl` leads its directory list. -/
def isUnder (excl : List Seg) (p : FPath) : Bool :=
  dirLeads excl p.dirs

/-- Modelled from the spec (PathCodec.toLocal): prefix the final path
segment with the disable marker (a single leading dash) when `disabled`
is true; otherwise the identity mapping. -/
def toLocal (canonical : FPath) (disabled : Bool) : FPath :=
  if disabled then ⟨canonical.dirs, '-' :: canonical.file⟩ else canonical

/-- Result of classifying a local path. -/
inductive LocalClass where
  | managed (canonical : FPath) (disabled : Bool)
  | excluded
deriving DecidableEq, Repr

/-- Modelled from the spec (PathCodec.classify): any path under the
exclusion subtree is `excluded`; a path whose final segment begins with
the disable marker is `managed` with the marker stripped and
`disabled = true`; all other paths are `managed` as-is with
`disabled = false`. -/
def classify (excl : List Seg) (p : FPath) : LocalClass :=
  if isUnder excl p then .excluded
  else
    match p.file with
    | '-' :: rest => .managed ⟨p.dirs, rest⟩ true
    | _ => .managed p false

/-! ## Engine snapshots and the full-mode planner

Modelled from the spec: content hashes are opaque, represented as naturals;
a remote tree listing and a local directory walk are association lists from
paths to hashes. -/

/-- An opaque content hash. -/
abbrev Hash := Nat

/-- One planned add/replace operation: a canonical path tagged with whether
the local representation is disabled, so the new copy is written to the
same representation. -/
structure PlanEntry where
  path : FPath
  toDisabled : Bool
deriving DecidableEq, Repr

/-- The sync plan: disjoint add / replace / delete sets plus the target
remote commit identifier. -/
structure ChangeSet where
  toAdd : List PlanEntry
  toReplace : List PlanEntry
  toDelete : List FPath
  commitSha : String
deriving DecidableEq, Repr

/-- Modelled from the spec (TreeSnapshot.remoteSnapshot): the remote tree
restricted to canonical paths; the exclusion subtree is never part of the
remote snapshot, regardless of what the raw remote tree contains at the
equivalent path. -/
def remoteSnapshot (excl : List Seg) (tree : List (FPath × Hash)) :
    List (FPath × Hash) :=
  tree.filter (fun e => !(isUnder excl e.1))

/-- Modelled from the spec (TreeSnapshot.localSnapshot): walk the managed
root, classify each file via PathCodec, drop excluded entries, and record
managed entries as canonical path, content hash and disabled flag. -/
def localSnapshot (excl : List Seg) (fs : List (FPath × Hash)) :
    List (FPath × Hash × Bool) :=
  fs.filterMap (fun e =>
    match classify excl e.1 with
    | .excluded => none
    | .managed c d => some (c, e.2, d))

/-- Look up a canonical path in a remote snapshot. -/
def lookupRemote (c : FPath) (snap : List (FPath × Hash)) : Option Hash :=
  (snap.find? (fun e => e.1 == c)).map (·.2)

/-- Look up a canonical path in a local snapshot. -/
def lookupLocal (c : FPath) (snap : List (FPath × Hash × Bool)) :
    Option (Hash × Bool) :=
  (snap.find? (fun e => e.1 == c)).map (·.2)

/-- Modelled from the spec (DiffPlanner, full mode): for every canonical
path, remote-only goes to `toAdd` (enabled form), both-sides-differing
goes to `toReplace` with the disabled flag taken from the local entry,
local-only goes to `toDelete`, and equal hashes are a no-op. -/
def planFull (excl : List Seg) (tree fs : List (FPath × Hash))
    (sha : String) : ChangeSet :=
  let rsnap := remoteSnapshot excl tree
  let lsnap := localSnapshot excl fs
  { toAdd := rsnap.filterMap (fun e =>
      match lookupLocal e.1 lsnap with
      | none => some ⟨e.1, false⟩
      | some _ => none)
    toReplace := rsnap.filterMap (fun e =>
      match lookupLocal e.1 lsnap with
      | some (h, d) => if h ≠ e.2 then some ⟨e.1, d⟩ else none
      | none => none)
    toDelete := lsnap.filterMap (fun e =>
      match lookupRemote e.1 rsnap with
      | none => some e.1
      | some _ => none)
    commitSha := sha }

/-- Modelled from the spec (SyncExecutor): the local paths the executor
writes are the local representations, decided by each entry's disabled
flag, of the planned add and replace entries. -/
def writtenPaths (cs : ChangeSet) : List FPath :=
  (cs.toAdd ++ cs.toReplace).map (fun e => toLocal e.path e.toDisabled)

/-- Modelled from the spec (SyncExecutor): deleting a planned path covers
both the enabled and the disabled local variant. -/
def deletedPaths (cs : ChangeSet) : List FPath :=
  (cs.toDelete.map (fun p => [toLocal p false, toLocal p true])).flatten

/-- Modelled from the spec (TreeSnapshot, full mode): the local paths whose
content the planner reads and hashes are exactly the managed (non-excluded)
files of the local walk. -/
def hashedPaths (excl : List Seg) (fs : List (FPath × Hash)) : List FPath :=
  fs.filterMap (fun e =>
    match classify excl e.1 with
    | .excluded => none
    | .managed _ _ => some e.1)

/-! ## Frontend data model

Translated from the TypeScript interfaces in `SyncTab.tsx` and the `App`
component.  Strings are opaque here: the frontend only compares them and
tests JavaScript truthiness (a string is falsy exactly when empty, and a
nullable value is falsy when null). -/

/-- JavaScript truthiness of a nullable string value. -/
def jsTruthy : Option String → Bool
  | none => false
  | some s => !(s == "")

/-- The JavaScript `a || b` chain on nullable strings. -/
def jsOrStr (a b : Option String) : Option String :=
  if jsTruthy a then a else b

/-- The JavaScript `s || ""` idiom on a plain string. -/
def jsOrEmpty (s : String) : String :=
  if s == "" then "" else s

/-- One file of a sync analysis (`SyncFile` in `SyncTab.tsx`). -/
structure SyncFile where
  path : String
  to_disabled : Bool
deriving DecidableEq, Repr

/-- The result of `analyze_full_sync` (`SyncAnalysis` in `SyncTab.tsx`). -/
structure SyncAnalysis where
  files_to_add : List SyncFile
  files_to_replace : List SyncFile
  files_to_delete : List String
  commit_sha : String
deriving DecidableEq, Repr

/-- The result of a sync execution (`SyncResult` in `SyncTab.tsx`). -/
structure SyncResultT where
  files_downloaded : Nat
  files_deleted : Nat
  files_renamed : Nat
  files_skipped : Nat
  new_commit_sha : String
deriving DecidableEq, Repr

/-- The result of `run_quick_count_check` (`QuickCheckResult`). -/
structure QuickCheckResult where
  local_count : Nat
  remote_count : Nat
  counts_match : Bool
deriving DecidableEq, Repr

/-- The result of `check_sync_status` (`SyncStatusResult`). -/
structure SyncStatusResult where
  latest_commit_sha : String
  latest_commit_date : String
  last_sync_commit : Option String
  has_changes : Bool
deriving DecidableEq, Repr

/-- The sync tab status enumeration (`SyncStatus` in `SyncTab.tsx`). -/
inductive SyncStatus where
  | idle | checking | syncing | complete | error
deriving DecidableEq, Repr

/-- The sync mode radio selection (`SyncMode` in `SyncTab.tsx`). -/
inductive SyncMode where
  | incremental | full
deriving DecidableEq, Repr

/-- A Tauri backend command invocation, with the arguments the frontend
passes to it. -/
inductive Invocation where
  | checkSyncStatus (texturesDir : String) (lastSyncCommit : Option String)
      (githubToken : Option String)
  | analyzeFullSync (texturesDir : String) (githubToken : Option String)
  | runSync (texturesDir : String) (lastSyncCommit : Option String)
      (githubToken : Option String) (fullSync : Bool)
  | executeAnalyzedSync (texturesDir : String)
      (filesToAdd filesToReplace : List SyncFile) (filesToDelete : List String)
      (commitSha : String) (githubToken : Option String)
  | runQuickCountCheck (texturesDir : String) (githubToken : Option String)
  | updateLastSyncCommit (commitSha : String)
  | setInitialSetupDoneCmd (done : Bool)
  | getLatestCommit
deriving DecidableEq, Repr

/-- One step a `SyncTab` handler performs, in order: a backend invocation,
a React state update, a console log, or a call of the `onSyncComplete`
callback prop. -/
inductive Action where
  | call (i : Invocation)
  | setSyncStatus (v : SyncStatus)
  | setStatusResult (v : Option SyncStatusResult)
  | setSyncResult (v : Option SyncResultT)
  | setQuickCheckResult (v : Option QuickCheckResult)
  | setErrorMessage (v : Option String)
  | setShowTokenRequired (v : Bool)
  | setTokenSectionExpanded (v : Bool)
  | setShowOutput (v : Bool)
  | clearProgressMessages
  | appendProgressMessage (stage message : String)
  | setPendingAnalysis (v : Option SyncAnalysis)
  | setShowWarningDialog (v : Bool)
  | notifySyncComplete (sha : String)
  | consoleError (m : String)
deriving DecidableEq, Repr

/-- The props `SyncTab` receives from `App`. -/
structure SyncTabProps where
  texturesDir : String
  lastSyncCommit : Option String
  githubToken : Option String
deriving DecidableEq, Repr

/-- The outcome each backend command produces when invoked: the value it
resolves with, or the error string it rejects with. -/
structure Backend where
  analyzeRes : Except String SyncAnalysis
  runSyncRes : Except String SyncResultT
  execRes : Except String SyncResultT
  quickRes : Except String QuickCheckResult
  statusRes : Except String SyncStatusResult
deriving Repr

/-! ## SyncTab handlers

Each handler of `SyncTab.tsx` is translated to the ordered list of actions
it performs, given the props and the backend outcomes. -/

/-- Translated from `checkSyncStatus` in `SyncTab.tsx`: set status to
`checking`, clear the error, invoke `check_sync_status` with the override
commit if one was passed (JavaScript `overrideCommit || lastSyncCommit ||
null`), store the result or surface the failure, and finally return to
`idle`. -/
def checkSyncStatusActions (props : SyncTabProps) (b : Backend)
    (overrideCommit : Option String) : List Action :=
  [.setSyncStatus .checking, .setErrorMessage none,
   .call (.checkSyncStatus props.texturesDir
     (jsOrStr overrideCommit (jsOrStr props.lastSyncCommit none))
     (jsOrStr props.githubToken none))] ++
  (match b.statusRes with
   | .ok r => [.setStatusResult (some r)]
   | .error e =>
       [.consoleError ("checkSyncStatus error: " ++ e),
        .setErrorMessage (some ("Failed to check status: " ++ e))]) ++
  [.setSyncStatus .idle]

/-- Translated from `finishSync` in `SyncTab.tsx`: run the quick count
check (a failure is only logged), store the sync result, notify
`onSyncComplete` with the new commit sha, set status to `complete`, and
re-check the sync status against the new commit sha. -/
def finishSyncActions (props : SyncTabProps) (b : Backend)
    (result : SyncResultT) : List Action :=
  [.call (.runQuickCountCheck props.texturesDir props.githubToken)] ++
  (match b.quickRes with
   | .ok q => [.setQuickCheckResult (some q)]
   | .error e => [.consoleError ("Quick count check failed: " ++ e)]) ++
  [.setSyncResult (some result),
   .notifySyncComplete result.new_commit_sha,
   .setSyncStatus .complete] ++
  checkSyncStatusActions props b (some result.new_commit_sha)

/-- Translated from `executeAnalyzedSync` in `SyncTab.tsx`: set status to
`syncing`, invoke `execute_analyzed_sync` with exactly the analysis's
files and commit sha, then finish the sync on success or surface the
failure. -/
def executeAnalyzedSyncActions (props : SyncTabProps) (b : Backend)
    (analysis : SyncAnalysis) : List Action :=
  [.setSyncStatus .syncing, .setShowOutput true,
   .call (.executeAnalyzedSync props.texturesDir analysis.files_to_add
     analysis.files_to_replace analysis.files_to_delete analysis.commit_sha
     props.githubToken)] ++
  (match b.execRes with
   | .ok result => finishSyncActions props b result
   | .error e =>
       [.setErrorMessage (some ("Sync failed: " ++ e)),
        .setSyncStatus .error])

/-- Translated from `handleRunSync` in `SyncTab.tsx`: without a GitHub
token, show the token-required message and return before any backend
call.  With a token, reset the run state; in full mode invoke
`analyze_full_sync` and pause on the warning dialog when the analysis
contains replacements or deletions, otherwise execute directly; in
incremental mode invoke `run_sync` with `fullSync: false`. -/
def handleRunSyncActions (props : SyncTabProps) (mode : SyncMode)
    (b : Backend) : List Action :=
  if !(jsTruthy props.githubToken) then
    [.setShowTokenRequired true, .setTokenSectionExpanded true]
  else
    [.setShowTokenRequired false,
     .setSyncStatus .syncing, .clearProgressMessages, .setSyncResult none,
     .setQuickCheckResult none, .setErrorMessage none, .setShowOutput true] ++
    (match mode with
     | .full =>
       [.call (.analyzeFullSync props.texturesDir props.githubToken)] ++
       (match b.analyzeRes with
        | .ok analysis =>
          if analysis.files_to_replace.length > 0 ||
              analysis.files_to_delete.length > 0 then
            [.setPendingAnalysis (some analysis),
             .setShowWarningDialog true,
             .setSyncStatus .idle]
          else
            executeAnalyzedSyncActions props b analysis
        | .error e =>
            [.setErrorMessage (some ("Sync failed: " ++ e)),
             .setSyncStatus .error])
     | .incremental =>
       [.call (.runSync props.texturesDir props.lastSyncCommit
          props.githubToken false)] ++
       (match b.runSyncRes with
        | .ok result => finishSyncActions props b result
        | .error e =>
            [.setErrorMessage (some ("Sync failed: " ++ e)),
             .setSyncStatus .error]))

/-- Translated from `handleWarningConfirm` in `SyncTab.tsx`: close the
dialog and, when a pending analysis exists, execute it and clear it. -/
def handleWarningConfirmActions (props : SyncTabProps) (b : Backend)
    (pending : Option SyncAnalysis) : List Action :=
  [.setShowWarningDialog false] ++
  (match pending with
   | some a => executeAnalyzedSyncActions props b a ++ [.setPendingAnalysis none]
   | none => [])

/-- Translated from `handleWarningCancel` in `SyncTab.tsx`: close the
dialog, discard the pending analysis, return to `idle` and log a
cancellation progress message. -/
def handleWarningCancelActions : List Action :=
  [.setShowWarningDialog false, .setPendingAnalysis none,
   .setSyncStatus .idle,
   .appendProgressMessage "cancelled" "Sync cancelled by user."]

/-! ## SyncTab state -/

/-- The `SyncTab` component state touched by the handlers above. -/
structure SyncTabState where
  syncStatus : SyncStatus
  statusResult : Option SyncStatusResult
  syncResult : Option SyncResultT
  quickCheckResult : Option QuickCheckResult
  errorMessage : Option String
  showTokenRequired : Bool
  tokenSectionExpanded : Bool
  showOutput : Bool
  progressMessages : List (String × String)
  pendingAnalysis : Option SyncAnalysis
  showWarningDialog : Bool
deriving DecidableEq, Repr

/-- Apply one action to the component state (invocations, notifications
and console logs leave the state unchanged). -/
def applyAction (s : SyncTabState) : Action → SyncTabState
  | .call _ => s
  | .setSyncStatus v => { s with syncStatus := v }
  | .setStatusResult v => { s with statusResult := v }
  | .setSyncResult v => { s with syncResult := v }
  | .setQuickCheckResult v => { s with quickCheckResult := v }
  | .setErrorMessage v => { s with errorMessage := v }
  | .setShowTokenRequired v => { s with showTokenRequired := v }
  | .setTokenSectionExpanded v => { s with tokenSectionExpanded := v }
  | .setShowOutput v => { s with showOutput := v }
  | .clearProgressMessages => { s with progressMessages := [] }
  | .appendProgressMessage st m =>
      { s with progressMessages := s.progressMessages ++ [(st, m)] }
  | .setPendingAnalysis v => { s with pendingAnalysis := v }
  | .setShowWarningDialog v => { s with showWarningDialog := v }
  | .notifySyncComplete _ => s
  | .consoleError _ => s

/-- Run a list of actions over a starting state. -/
def runActions (s : SyncTabState) (as : List Action) : SyncTabState :=
  as.foldl applyAction s

/-- The initial `SyncTab` component state, from the `useState` initial
values in `SyncTab.tsx` (the token section starts expanded exactly when no
token is configured). -/
def initialSyncTabState (githubToken : Option String) : SyncTabState :=
  { syncStatus := .idle, statusResult := none, syncResult := none,
    quickCheckResult := none, errorMessage := none, showTokenRequired := false,
    tokenSectionExpanded := !(jsTruthy githubToken), showOutput := false,
    progressMessages := [], pendingAnalysis := none, showWarningDialog := false }

/-- The backend invocations contained in an action list, in order. -/
def calls (as : List Action) : List Invocation :=
  as.filterMap (fun a => match a with | .call i => some i | _ => none)

/-- Whether an action list ever opens the warning dialog. -/
def showsWarning (as : List Action) : Bool :=
  as.any (fun a => a == .setShowWarningDialog true)

/-- Whether an action list invokes `execute_analyzed_sync`. -/
def callsExecute (as : List Action) : Bool :=
  as.any (fun a =>
    match a with
    | .call (.executeAnalyzedSync _ _ _ _ _ _) => true
    | _ => false)

/-- Whether the list `xs` occurs, in order, as a subsequence of `as`. -/
def occursInOrder : List Action → List Action → Bool
  | [], _ => true
  | _ :: _, [] => false
  | x :: xr, a :: ar =>
      if a = x then occursInOrder xr ar else occursInOrder (x :: xr) ar

/-! ## SyncTab render fragments used by the claims -/

/-- What the quick-count-check result box displays, from the JSX in
`SyncTab.tsx`: nothing unless both a quick-check result and a sync result
exist and the status is `complete` or `idle`; a verified message when the
counts match; otherwise a mismatch message advising to run a Full Sync. -/
inductive QuickCheckDisplay where
  | hidden
  | verified (localCount : Nat)
  | mismatchRunFullSync (localCount remoteCount : Nat)
deriving DecidableEq, Repr

/-- Translated from the quick-check JSX condition in `SyncTab.tsx`. -/
def renderQuickCheck (s : SyncTabState) : QuickCheckDisplay :=
  match s.quickCheckResult, s.syncResult with
  | some q, some _ =>
    if s.syncStatus = .complete ∨ s.syncStatus = .idle then
      if q.counts_match then .verified q.local_count
      else .mismatchRunFullSync q.local_count q.remote_count
    else .hidden
  | _, _ => .hidden

/-- Translated from the warning-dialog JSX in `SyncTab.tsx`: the dialog is
rendered, listing the analysis's replacement and deletion file lists, iff
`showWarningDialog` is set and a pending analysis exists. -/
def renderWarningDialog (s : SyncTabState) :
    Option (List SyncFile × List String) :=
  if s.showWarningDialog then
    s.pendingAnalysis.map (fun a => (a.files_to_replace, a.files_to_delete))
  else none

/-- Translated from the token-required JSX in `SyncTab.tsx`: the banner
"A GitHub API key is required for syncing." is rendered iff
`showTokenRequired` is set. -/
def rendersTokenRequiredBanner (s : SyncTabState) : Bool :=
  s.showTokenRequired

/-! ## App component (`App.tsx`)

The `App` component owns the persisted state and the version gate.  Its
handlers are embedded the same way as the `SyncTab` ones. -/

/-- One step an `App` handler performs. -/
inductive AppAction where
  | call (i : Invocation)
  | setLastSyncCommit (v : Option String)
  | setLastSyncTimestamp (v : Option String)
  | setInitialSetupDoneState (v : Bool)
  | consoleError (m : String)
deriving DecidableEq, Repr

/-- Translated from `handleSyncComplete` in `App.tsx`: invoke
`update_last_sync_commit` with the commit sha; on success record the sha
and the current timestamp, on failure only log. -/
def handleSyncCompleteActions (updateRes : Except String Unit)
    (sha now : String) : List AppAction :=
  [.call (.updateLastSyncCommit sha)] ++
  (match updateRes with
   | .ok _ => [.setLastSyncCommit (some sha), .setLastSyncTimestamp (some now)]
   | .error e => [.consoleError ("Failed to update sync commit: " ++ e)])

/-- Translated from `handleSetupToggle` in `App.tsx`: invoke
`set_initial_setup_done`; on success record the flag and, when marking
done with no last-synced commit, fetch the latest commit and store it —
with any error of that inner block ignored entirely (the inner `catch`
block is empty). -/
def handleSetupToggleActions (setRes : Except String Unit)
    (latestRes : Except String String) (updateRes : Except String Unit)
    (done : Bool) (lastSyncCommit : Option String) : List AppAction :=
  [.call (.setInitialSetupDoneCmd done)] ++
  (match setRes with
   | .error e => [.consoleError ("Failed to set setup done: " ++ e)]
   | .ok _ =>
     [.setInitialSetupDoneState done] ++
     (if done && !(jsTruthy lastSyncCommit) then
        [AppAction.call .getLatestCommit] ++
        (match latestRes with
         | .error _ => []
         | .ok sha =>
           [.call (.updateLastSyncCommit sha)] ++
           (match updateRes with
            | .error _ => []
            | .ok _ => [.setLastSyncCommit (some sha)]))
      else []))

/-- Whether an `App` action surfaces an error to the user.  The only
user-visible error channel the `App` handlers could use is the installer
data error modal; `handleSyncComplete` and `handleSetupToggle` never set
it, so their only error outlets are console logs, which the user does not
see. -/
def appSurfacesError : AppAction → Bool
  | _ => false

/-- The spec's universal error claim, stated over the manual setup toggle:
whenever the latest-commit fetch it performs fails, some action of the
handler surfaces the error to the user. -/
def setupToggleErrorsSurfaced : Prop :=
  ∀ (setRes : Except String Unit) (latestRes : Except String String)
    (updateRes : Except String Unit) (done : Bool)
    (lastSyncCommit : Option String) (e : String),
    latestRes = .error e →
    AppAction.call .getLatestCommit ∈
      handleSetupToggleActions setRes latestRes updateRes done lastSyncCommit →
    (handleSetupToggleActions setRes latestRes updateRes done
        lastSyncCommit).any appSurfacesError = true

/-! ## App version gate (`App.tsx`) -/

/-- The installer metadata fetched from the repository
(`InstallerData` in `App.tsx`). -/
structure InstallerData where
  min_download_app_version : String
  total_size : String
  downloader_app_url : String
deriving DecidableEq, Repr

/-- The wrapper `fetch_installer_data` resolves with
(`InstallerDataResult` in `App.tsx`). -/
structure InstallerDataResult where
  data : Option InstallerData
  error : Option String
deriving DecidableEq, Repr

/-- The `App` state fields the version gate reads and writes. -/
structure AppVersionState where
  appVersion : Option String
  installerData : Option InstallerData
  installerDataError : Option String
  isAppOutdated : Bool
  requiredVersion : String
deriving DecidableEq, Repr

/-- The `App` component's initial values for the version-gate state. -/
def initialAppVersionState : AppVersionState :=
  { appVersion := none, installerData := none, installerDataError := none,
    isAppOutdated := false, requiredVersion := "" }

/-- Translated from `fetchAppInfo` in `App.tsx`: fetch the app version and
the installer data; store a reported or thrown error in
`installerDataError`; when data arrives, store it and invoke
`compare_versions(version, min_download_app_version)`; a negative
comparison marks the app outdated and records the required version. -/
def fetchAppInfo (versionRes : Except String String)
    (dataRes : Except String InstallerDataResult)
    (cmpRes : Except String Int) (s : AppVersionState) : AppVersionState :=
  match versionRes with
  | .error e => { s with installerDataError := some e }
  | .ok v =>
    let s := { s with appVersion := some v }
    match dataRes with
    | .error e => { s with installerDataError := some e }
    | .ok result =>
      if jsTruthy result.error then { s with installerDataError := result.error }
      else
        match result.data with
        | none => s
        | some d =>
          let s := { s with installerData := some d }
          match cmpRes with
          | .error e => { s with installerDataError := some e }
          | .ok c =>
            if c < 0 then
              { s with isAppOutdated := true,
                       requiredVersion := d.min_download_app_version }
            else s

/-- What the `App` component renders at top level. -/
inductive AppRender where
  | loading
  | outdatedModal (currentVersion requiredVersion downloaderAppUrl : String)
  | fetchErrorModal (error : String)
  | mainInterface
deriving DecidableEq, Repr

/-- Whether the installer data field is non-null (JavaScript truthiness of
the object). -/
def hasInstallerData : Option InstallerData → Bool
  | some _ => true
  | none => false

/-- Translated from the `App.tsx` top-level render decision: a spinner
while state or installer data is loading, then the blocking outdated
modal, then the fetch-error modal, then the normal tab interface. -/
def renderApp (stateLoaded : Bool) (s : AppVersionState) : AppRender :=
  if !stateLoaded ||
      (!(hasInstallerData s.installerData) && !(jsTruthy s.installerDataError)) then
    .loading
  else if s.isAppOutdated && jsTruthy s.appVersion then
    .outdatedModal ((s.appVersion).getD "") s.requiredVersion
      (jsOrEmpty (((s.installerData).map (·.downloader_app_url)).getD ""))
  else if jsTruthy s.installerDataError && !(hasInstallerData s.installerData) then
    .fetchErrorModal ((s.installerDataError).getD "")
  else .mainInterface

/-- Translated from `AppOutdatedModal.tsx`: the interactive elements the
modal offers.  The component renders exactly one button, which opens the
downloader URL; there is no dismiss control. -/
inductive OutdatedModalControl where
  | openDownloadPage (url : String)
deriving DecidableEq, Repr

/-- The full list of controls `AppOutdatedModal` renders. -/
def appOutdatedModalControls (downloaderAppUrl : String) :
    List OutdatedModalControl :=
  [.openDownloadPage downloaderAppUrl]

/-! ## Engine lemmas -/

/-- A path that classifies as managed keeps its directory list in the
canonical path and does not lie under the exclusion subtree. -/
theorem classify_managed {excl : List Seg} {q c : FPath} {d : Bool}
    (h : classify excl q = .managed c d) :
    c.dirs = q.dirs ∧ isUnder excl q = false := by
  unfold classify at h
  split at h
  · simp at h
  · rename_i hu
    constructor
    · split at h <;> (cases h; rfl)
    · simpa using hu

/-- The disable marker only changes the file-name segment, so marking
never moves a path in or out of the exclusion subtree. -/
theorem isUnder_toLocal (excl : List Seg) (c : FPath) (d : Bool) :
    isUnder excl (toLocal c d) = isUnder excl c := by
  cases d <;> rfl

/-- Remote snapshot entries are never under the exclusion subtree. -/
theorem mem_remoteSnapshot_not_under {excl : List Seg}
    {tree : List (FPath × Hash)} {e : FPath × Hash}
    (h : e ∈ remoteSnapshot excl tree) : isUnder excl e.1 = false := by
  unfold remoteSnapshot at h
  simpa using (List.mem_filter.mp h).2

/-- Local snapshot entries have canonical paths outside the exclusion
subtree. -/
theorem mem_localSnapshot_not_under {excl : List Seg}
    {fs : List (FPath × Hash)} {e : FPath × Hash × Bool}
    (h : e ∈ localSnapshot excl fs) : isUnder excl e.1 = false := by
  unfold localSnapshot at h
  obtain ⟨x, _, hx⟩ := List.mem_filterMap.mp h
  split at hx
  · simp at hx
  · rename_i c d hcl
    cases hx
    obtain ⟨hdirs, hnu⟩ := classify_managed hcl
    simpa [isUnder, hdirs] using hnu

/-- Planned add and replace entries have canonical paths outside the
exclusion subtree. -/
theorem planFull_addReplace_not_under {excl : List Seg}
    {tree fs : List (FPath × Hash)} {sha : String} {e : PlanEntry}
    (h : e ∈ (planFull excl tree fs sha).toAdd ++
          (planFull excl tree fs sha).toReplace) :
    isUnder excl e.path = false := by
  simp only [planFull, List.mem_append] at h
  rcases h with h | h
  · obtain ⟨x, hx, hmx⟩ := List.mem_filterMap.mp h
    split at hmx
    · cases hmx; exact mem_remoteSnapshot_not_under hx
    · simp at hmx
  · obtain ⟨x, hx, hmx⟩ := List.mem_filterMap.mp h
    split at hmx
    · split at hmx
      · cases hmx; exact mem_remoteSnapshot_not_under hx
      · simp at hmx
    · simp at hmx

/-- Planned delete paths lie outside the exclusion subtree. -/
theorem planFull_toDelete_not_under {excl : List Seg}
    {tree fs : List (FPath × Hash)} {sha : String} {p : FPath}
    (h : p ∈ (planFull excl tree fs sha).toDelete) :
    isUnder excl p = false := by
  simp only [planFull] at h
  obtain ⟨x, hx, hmx⟩ := List.mem_filterMap.mp h
  split at hmx
  · cases hmx; exact mem_localSnapshot_not_under hx
  · simp at hmx

/-- C1: for every file whose path lies under the exclusion subtree, no
planning or execution operation ever reads, hashes, writes, or deletes
it, regardless of what the remote tree contains at the equivalent path:
the path is never among the local files the planner reads and hashes,
never among the paths the executor writes, and never among the paths the
executor deletes, for any remote tree and any local directory contents. -/
theorem exclusion_subtree_untouched (excl : List Seg)
    (tree fs : List (FPath × Hash)) (sha : String) (p : FPath)
    (hp : isUnder excl p = true) :
    p ∉ hashedPaths excl fs ∧
    p ∉ writtenPaths (planFull excl tree fs sha) ∧
    p ∉ deletedPaths (planFull excl tree fs sha) := by
  refine ⟨?_, ?_, ?_⟩ <;> intro hmem
  · unfold hashedPaths at hmem
    obtain ⟨x, _, hx⟩ := List.mem_filterMap.mp hmem
    split at hx
    · simp at hx
    · rename_i hcl
      cases hx
      exact absurd hp (by simp [(classify_managed hcl).2])
  · unfold writtenPaths at hmem
    obtain ⟨e, he, hev⟩ := List.mem_map.mp hmem
    have hne := planFull_addReplace_not_under he
    rw [← hev, isUnder_toLocal] at hp
    exact absurd hp (by simp [hne])
  · unfold deletedPaths at hmem
    obtain ⟨l, hl, hpl⟩ := List.mem_flatten.mp hmem
    obtain ⟨q, hq, hqv⟩ := List.mem_map.mp hl
    have hne := planFull_toDelete_not_under hq
    rw [← hqv] at hpl
    simp only [List.mem_cons, List.not_mem_nil, or_false] at hpl
    rcases hpl with h | h <;>
    · rw [h, isUnder_toLocal] at hp
      exact absurd hp (by simp [hne])

/-- C1 witness: a concrete excluded path, with the conclusion instantiated
at a remote tree and local directory that both mention it. -/
theorem exclusion_subtree_untouched_witness :
    isUnder [['u']] ⟨[['u']], ['f']⟩ = true ∧
    (⟨[['u']], ['f']⟩ ∉ hashedPaths [['u']] [(⟨[['u']], ['f']⟩, 2)] ∧
     ⟨[['u']], ['f']⟩ ∉ writtenPaths
       (planFull [['u']] [(⟨[['u']], ['f']⟩, 1)] [(⟨[['u']], ['f']⟩, 2)] "s") ∧
     ⟨[['u']], ['f']⟩ ∉ deletedPaths
       (planFull [['u']] [(⟨[['u']], ['f']⟩, 1)] [(⟨[['u']], ['f']⟩, 2)] "s")) :=
  ⟨by decide,
   exclusion_subtree_untouched [['u']] [(⟨[['u']], ['f']⟩, 1)]
     [(⟨[['u']], ['f']⟩, 2)] "s" ⟨[['u']], ['f']⟩ (by decide)⟩

/-- C2: a locally disabled managed file whose remote content changed is
planned as a replace entry tagged disabled, the executor writes the new
content to the dash-marked local representation, and that representation
differs from the enabled one — an update never re-enables a texture the
user disabled. -/
theorem disabled_replace_written_disabled (excl : List Seg) (P : FPath)
    (h₁ h₂ : Hash) (sha : String) (hdiff : h₁ ≠ h₂)
    (hnex : isUnder excl P = false) :
    (planFull excl [(P, h₂)] [(toLocal P true, h₁)] sha).toReplace
        = [⟨P, true⟩] ∧
    writtenPaths (planFull excl [(P, h₂)] [(toLocal P true, h₁)] sha)
        = [toLocal P true] ∧
    toLocal P true ≠ toLocal P false := by
  have hnex' : dirLeads excl P.dirs = false := by simpa [isUnder] using hnex
  refine ⟨?_, ?_, ?_⟩
  · simp [planFull, remoteSnapshot, localSnapshot, classify, isUnder,
      toLocal, lookupLocal, List.find?, hnex', hdiff]
  · simp [writtenPaths, planFull, remoteSnapshot, localSnapshot, classify,
      isUnder, toLocal, lookupLocal, List.find?, hnex', hdiff]
  · simp only [toLocal, if_pos, if_neg, Bool.false_eq_true, ite_false, ite_true]
    exact fun h => List.cons_ne_self '-' P.file (congrArg FPath.file h)

/-- C2 witness: the theorem instantiated at a one-segment path with
distinct hashes and an exclusion folder the path does not lie under. -/
theorem disabled_replace_written_disabled_witness :
    (1 : Hash) ≠ 2 ∧ isUnder [['c']] ⟨[], ['f']⟩ = false ∧
    ((planFull [['c']] [(⟨[], ['f']⟩, 2)]
        [(toLocal ⟨[], ['f']⟩ true, 1)] "s").toReplace
        = [⟨⟨[], ['f']⟩, true⟩] ∧
     writtenPaths (planFull [['c']] [(⟨[], ['f']⟩, 2)]
        [(toLocal ⟨[], ['f']⟩ true, 1)] "s") = [toLocal ⟨[], ['f']⟩ true] ∧
     toLocal ⟨[], ['f']⟩ true ≠ toLocal ⟨[], ['f']⟩ false) :=
  ⟨by decide, by decide,
   disabled_replace_written_disabled [['c']] ⟨[], ['f']⟩ 1 2 "s"
     (by decide) (by decide)⟩

/-! ## Frontend theorems -/

/-- C3: with no GitHub token configured (null or empty), `handleRunSync`
invokes no backend command at all — in particular none of
`analyze_full_sync`, `run_sync`, `execute_analyzed_sync` — and instead
surfaces the token-required message, in either sync mode and whatever the
backend would have answered. -/
theorem sync_refuses_without_token (props : SyncTabProps) (mode : SyncMode)
    (b : Backend) (s : SyncTabState)
    (h : jsTruthy props.githubToken = false) :
    calls (handleRunSyncActions props mode b) = [] ∧
    rendersTokenRequiredBanner
      (runActions s (handleRunSyncActions props mode b)) = true := by
  simp [handleRunSyncActions, h, calls, runActions, applyAction,
    rendersTokenRequiredBanner]

/-- C3 witness: the theorem at a concrete props record with a null token. -/
theorem sync_refuses_without_token_witness :
    jsTruthy (SyncTabProps.mk "/t" none none).githubToken = false ∧
    (calls (handleRunSyncActions ⟨"/t", none, none⟩ .incremental
        ⟨.error "x", .error "x", .error "x", .error "x", .error "x"⟩) = [] ∧
     rendersTokenRequiredBanner (runActions (initialSyncTabState none)
        (handleRunSyncActions ⟨"/t", none, none⟩ .incremental
          ⟨.error "x", .error "x", .error "x", .error "x", .error "x"⟩)) = true) :=
  ⟨by decide,
   sync_refuses_without_token ⟨"/t", none, none⟩ .incremental
     ⟨.error "x", .error "x", .error "x", .error "x", .error "x"⟩
     (initialSyncTabState none) (by decide)⟩

/-- C9: in incremental mode with a token present, `run_sync` is invoked
directly with `fullSync = false`, and the warning dialog is never opened,
whatever the backend reports the plan to contain — destructive incremental
operations run without human confirmation. -/
theorem incremental_runs_without_confirmation (props : SyncTabProps)
    (b : Backend) (s : SyncTabState)
    (htok : jsTruthy props.githubToken = true) :
    Action.call (.runSync props.texturesDir props.lastSyncCommit
        props.githubToken false) ∈ handleRunSyncActions props .incremental b ∧
    showsWarning (handleRunSyncActions props .incremental b) = false ∧
    (runActions s (handleRunSyncActions props .incremental b)).showWarningDialog
      = s.showWarningDialog := by
  obtain ⟨ar, rr, er, qr, sr⟩ := b
  cases rr <;> cases qr <;> cases sr <;>
    simp [handleRunSyncActions, htok, finishSyncActions,
      checkSyncStatusActions, showsWarning, runActions, applyAction]

/-- C9 witness: concrete props carrying a token, with a backend whose
incremental plan replaces and deletes files. -/
theorem incremental_runs_without_confirmation_witness :
    jsTruthy (SyncTabProps.mk "/t" (some "old") (some "tok")).githubToken = true ∧
    (Action.call (.runSync "/t" (some "old") (some "tok") false) ∈
       handleRunSyncActions ⟨"/t", some "old", some "tok"⟩ .incremental
         ⟨.error "x", .ok ⟨3, 2, 1, 0, "new"⟩, .error "x",
          .ok ⟨7, 7, true⟩, .ok ⟨"new", "d", some "old", false⟩⟩ ∧
     showsWarning (handleRunSyncActions ⟨"/t", some "old", some "tok"⟩
         .incremental ⟨.error "x", .ok ⟨3, 2, 1, 0, "new"⟩, .error "x",
          .ok ⟨7, 7, true⟩, .ok ⟨"new", "d", some "old", false⟩⟩) = false ∧
     (runActions (initialSyncTabState (some "tok"))
        (handleRunSyncActions ⟨"/t", some "old", some "tok"⟩ .incremental
          ⟨.error "x", .ok ⟨3, 2, 1, 0, "new"⟩, .error "x",
           .ok ⟨7, 7, true⟩, .ok ⟨"new", "d", some "old", false⟩⟩)).showWarningDialog
       = (initialSyncTabState (some "tok")).showWarningDialog) :=
  ⟨by decide,
   incremental_runs_without_confirmation ⟨"/t", some "old", some "tok"⟩
     ⟨.error "x", .ok ⟨3, 2, 1, 0, "new"⟩, .error "x",
      .ok ⟨7, 7, true⟩, .ok ⟨"new", "d", some "old", false⟩⟩
     (initialSyncTabState (some "tok")) (by decide)⟩

/-- C4: in a full-mode run with a token, once `analyze_full_sync` answers,
execution pauses on the warning dialog exactly when the analysis contains
at least one replacement or deletion: in that case the dialog listing the
affected files is shown and `execute_analyzed_sync` is not invoked; when
both sets are empty the analyzed plan is executed directly and the dialog
is never opened. -/
theorem full_sync_confirmation_iff_destructive (props : SyncTabProps)
    (b : Backend) (s : SyncTabState) (analysis : SyncAnalysis)
    (htok : jsTruthy props.githubToken = true)
    (hana : b.analyzeRes = .ok analysis) :
    (showsWarning (handleRunSyncActions props .full b) = true ↔
       analysis.files_to_replace ≠ [] ∨ analysis.files_to_delete ≠ []) ∧
    ((analysis.files_to_replace ≠ [] ∨ analysis.files_to_delete ≠ []) →
       callsExecute (handleRunSyncActions props .full b) = false ∧
       renderWarningDialog (runActions s (handleRunSyncActions props .full b))
         = some (analysis.files_to_replace, analysis.files_to_delete)) ∧
    (analysis.files_to_replace = [] ∧ analysis.files_to_delete = [] →
       Action.call (.executeAnalyzedSync props.texturesDir
           analysis.files_to_add analysis.files_to_replace
           analysis.files_to_delete analysis.commit_sha props.githubToken)
         ∈ handleRunSyncActions props .full b) := by
  obtain ⟨ar, rr, er, qr, sr⟩ := b
  cases hana
  by_cases hd : analysis.files_to_replace = [] ∧ analysis.files_to_delete = []
  · obtain ⟨hr, hdel⟩ := hd
    cases er <;> cases qr <;> cases sr <;>
      simp [handleRunSyncActions, htok, hr, hdel, executeAnalyzedSyncActions,
        finishSyncActions, checkSyncStatusActions, showsWarning, callsExecute,
        renderWarningDialog, runActions, applyAction]
  · have hne : analysis.files_to_replace ≠ [] ∨ analysis.files_to_delete ≠ [] := by
      tauto
    have hlen : (analysis.files_to_replace.length > 0 ||
        analysis.files_to_delete.length > 0) = true := by
      rcases hne with h | h <;> simp [List.length_pos.mpr h]
    refine ⟨by simp [handleRunSyncActions, htok, hlen, showsWarning, hne], fun _ => ?_, fun h => absurd h hd⟩
    constructor
    · simp [handleRunSyncActions, htok, hlen, callsExecute]
    · simp [handleRunSyncActions, htok, hlen, renderWarningDialog,
        runActions, applyAction]

/-- C4 witness: a destructive analysis (one replacement) pauses on the
dialog, and an empty analysis executes directly. -/
theorem full_sync_confirmation_iff_destructive_witness :
    jsTruthy (SyncTabProps.mk "/t" none (some "tok")).githubToken = true ∧
    (⟨.ok ⟨[], [⟨"a.png", false⟩], [], "c"⟩, .error "x", .ok ⟨1, 0, 0, 0, "c"⟩,
        .ok ⟨7, 7, true⟩, .ok ⟨"c", "d", none, false⟩⟩ : Backend).analyzeRes
      = .ok ⟨[], [⟨"a.png", false⟩], [], "c"⟩ ∧
    (showsWarning (handleRunSyncActions ⟨"/t", none, some "tok"⟩ .full
        ⟨.ok ⟨[], [⟨"a.png", false⟩], [], "c"⟩, .error "x", .ok ⟨1, 0, 0, 0, "c"⟩,
         .ok ⟨7, 7, true⟩, .ok ⟨"c", "d", none, false⟩⟩) = true ↔
      ([⟨"a.png", false⟩] : List SyncFile) ≠ [] ∨ ([] : List String) ≠ []) :=
  ⟨by decide, rfl,
   (full_sync_confirmation_iff_destructive ⟨"/t", none, some "tok"⟩
     ⟨.ok ⟨[], [⟨"a.png", false⟩], [], "c"⟩, .error "x", .ok ⟨1, 0, 0, 0, "c"⟩,
      .ok ⟨7, 7, true⟩, .ok ⟨"c", "d", none, false⟩⟩
     (initialSyncTabState (some "tok")) ⟨[], [⟨"a.png", false⟩], [], "c"⟩
     (by decide) rfl).1⟩

/-- C5: confirming the warning dialog executes the pending plan —
`execute_analyzed_sync` is invoked with exactly the pending analysis's
files to add, replace, delete and its commit sha — and clears the pending
plan; cancelling invokes no backend command at all, discards the pending
plan, closes the dialog and returns to idle. -/
theorem warning_confirm_executes_cancel_discards (props : SyncTabProps)
    (b : Backend) (s : SyncTabState) (a : SyncAnalysis) :
    (Action.call (.executeAnalyzedSync props.texturesDir a.files_to_add
        a.files_to_replace a.files_to_delete a.commit_sha props.githubToken)
      ∈ handleWarningConfirmActions props b (some a) ∧
     (runActions s (handleWarningConfirmActions props b (some a))).pendingAnalysis
       = none) ∧
    (calls handleWarningCancelActions = [] ∧
     (runActions s handleWarningCancelActions).pendingAnalysis = none ∧
     (runActions s handleWarningCancelActions).showWarningDialog = false ∧
     (runActions s handleWarningCancelActions).syncStatus = .idle) := by
  obtain ⟨ar, rr, er, qr, sr⟩ := b
  cases er <;> cases qr <;> cases sr <;>
    simp [handleWarningConfirmActions, handleWarningCancelActions,
      executeAnalyzedSyncActions, finishSyncActions, checkSyncStatusActions,
      calls, runActions, applyAction]

/-- C6: after a successful sync execution — incremental (`run_sync`
succeeded) or full (`execute_analyzed_sync` succeeded, whether entered
directly or via the warning dialog's confirmation, both of which run the
same `executeAnalyzedSync` sequence) — `run_quick_count_check` is invoked
before the status is set to `complete`, whatever the quick check itself
returns; and when the quick check reports disagreeing counts, the final
render shows the mismatch box advising the user to run a Full Sync. -/
theorem quick_check_before_complete_and_advises (props : SyncTabProps)
    (b : Backend) (s : SyncTabState) (a : SyncAnalysis) (r : SyncResultT)
    (htok : jsTruthy props.githubToken = true)
    (hrun : b.runSyncRes = .ok r) (hexec : b.execRes = .ok r) :
    occursInOrder
      [.call (.runQuickCountCheck props.texturesDir props.githubToken),
       .setSyncStatus .complete]
      (handleRunSyncActions props .incremental b) = true ∧
    occursInOrder
      [.call (.runQuickCountCheck props.texturesDir props.githubToken),
       .setSyncStatus .complete]
      (executeAnalyzedSyncActions props b a) = true ∧
    (∀ q : QuickCheckResult, b.quickRes = .ok q → q.counts_match = false →
      renderQuickCheck (runActions s (handleRunSyncActions props .incremental b))
        = .mismatchRunFullSync q.local_count q.remote_count ∧
      renderQuickCheck (runActions s (executeAnalyzedSyncActions props b a))
        = .mismatchRunFullSync q.local_count q.remote_count) := by
  obtain ⟨ar, rr, er, qr, sr⟩ := b
  cases hrun; cases hexec
  refine ⟨?_, ?_, ?_⟩
  · cases qr <;> cases sr <;>
      simp [handleRunSyncActions, htok, finishSyncActions,
        checkSyncStatusActions, occursInOrder]
  · cases qr <;> cases sr <;>
      simp [executeAnalyzedSyncActions, finishSyncActions,
        checkSyncStatusActions, occursInOrder]
  · intro q hq hmm
    subst hq
    cases sr <;>
      simp [handleRunSyncActions, htok, executeAnalyzedSyncActions,
        finishSyncActions, checkSyncStatusActions, renderQuickCheck, hmm,
        runActions, applyAction]

/-- C6 witness: a concrete successful sync whose quick check reports one
missing file, instantiating both the ordering and the advice render. -/
theorem quick_check_before_complete_and_advises_witness :
    jsTruthy (SyncTabProps.mk "/t" (some "old") (some "tok")).githubToken = true ∧
    (⟨.ok ⟨[], [], [], "new"⟩, .ok ⟨1, 0, 0, 0, "new"⟩, .ok ⟨1, 0, 0, 0, "new"⟩,
        .ok ⟨6, 7, false⟩, .ok ⟨"new", "d", some "new", false⟩⟩ : Backend).runSyncRes
      = .ok ⟨1, 0, 0, 0, "new"⟩ ∧
    (QuickCheckResult.mk 6 7 false).counts_match = false ∧
    occursInOrder
      [.call (.runQuickCountCheck "/t" (some "tok")), .setSyncStatus .complete]
      (handleRunSyncActions ⟨"/t", some "old", some "tok"⟩ .incremental
        ⟨.ok ⟨[], [], [], "new"⟩, .ok ⟨1, 0, 0, 0, "new"⟩, .ok ⟨1, 0, 0, 0, "new"⟩,
         .ok ⟨6, 7, false⟩, .ok ⟨"new", "d", some "new", false⟩⟩) = true ∧
    renderQuickCheck (runActions (initialSyncTabState (some "tok"))
        (handleRunSyncActions ⟨"/t", some "old", some "tok"⟩ .incremental
          ⟨.ok ⟨[], [], [], "new"⟩, .ok ⟨1, 0, 0, 0, "new"⟩, .ok ⟨1, 0, 0, 0, "new"⟩,
           .ok ⟨6, 7, false⟩, .ok ⟨"new", "d", some "new", false⟩⟩))
      = .mismatchRunFullSync 6 7 := by
  refine ⟨by decide, rfl, rfl, ?_, ?_⟩
  · exact (quick_check_before_complete_and_advises
      ⟨"/t", some "old", some "tok"⟩
      ⟨.ok ⟨[], [], [], "new"⟩, .ok ⟨1, 0, 0, 0, "new"⟩, .ok ⟨1, 0, 0, 0, "new"⟩,
       .ok ⟨6, 7, false⟩, .ok ⟨"new", "d", some "new", false⟩⟩
      (initialSyncTabState (some "tok")) ⟨[], [], [], "new"⟩
      ⟨1, 0, 0, 0, "new"⟩ (by decide) rfl rfl).1
  · exact ((quick_check_before_complete_and_advises
      ⟨"/t", some "old", some "tok"⟩
      ⟨.ok ⟨[], [], [], "new"⟩, .ok ⟨1, 0, 0, 0, "new"⟩, .ok ⟨1, 0, 0, 0, "new"⟩,
       .ok ⟨6, 7, false⟩, .ok ⟨"new", "d", some "new", false⟩⟩
      (initialSyncTabState (some "tok")) ⟨[], [], [], "new"⟩
      ⟨1, 0, 0, 0, "new"⟩ (by decide) rfl rfl).2.2 ⟨6, 7, false⟩ rfl rfl).1

/-- C7: on every successful execution, `finishSync` notifies
`onSyncComplete` with the result's `new_commit_sha` and then performs the
status check against that new commit; and the `App` component's
`handleSyncComplete` — which `App` passes as the `onSyncComplete` prop —
invokes `update_last_sync_commit` with exactly that sha, persisting it as
the new baseline. -/
theorem new_baseline_persisted_and_rechecked (props : SyncTabProps)
    (b : Backend) (r : SyncResultT) (u : Except String Unit) (now : String)
    (hsha : r.new_commit_sha ≠ "") :
    occursInOrder
      [.notifySyncComplete r.new_commit_sha,
       .call (.checkSyncStatus props.texturesDir (some r.new_commit_sha)
         (jsOrStr props.githubToken none))]
      (finishSyncActions props b r) = true ∧
    AppAction.call (.updateLastSyncCommit r.new_commit_sha) ∈
      handleSyncCompleteActions u r.new_commit_sha now := by
  obtain ⟨ar, rr, er, qr, sr⟩ := b
  cases u <;> cases qr <;> cases sr <;>
    simp [finishSyncActions, checkSyncStatusActions, occursInOrder,
      handleSyncCompleteActions, jsOrStr, jsTruthy, hsha]

/-- C7 witness: a concrete successful result whose sha is non-empty. -/
theorem new_baseline_persisted_and_rechecked_witness :
    (SyncResultT.mk 2 1 0 0 "abc").new_commit_sha ≠ "" ∧
    (occursInOrder
      [.notifySyncComplete "abc",
       .call (.checkSyncStatus "/t" (some "abc") (jsOrStr (some "tok") none))]
      (finishSyncActions ⟨"/t", some "old", some "tok"⟩
        ⟨.error "x", .error "x", .error "x", .ok ⟨7, 7, true⟩,
         .ok ⟨"abc", "d", some "abc", false⟩⟩ ⟨2, 1, 0, 0, "abc"⟩) = true ∧
     AppAction.call (.updateLastSyncCommit "abc") ∈
       handleSyncCompleteActions (.ok ()) "abc" "2026-01-01") :=
  ⟨by decide,
   new_baseline_persisted_and_rechecked ⟨"/t", some "old", some "tok"⟩
     ⟨.error "x", .error "x", .error "x", .ok ⟨7, 7, true⟩,
      .ok ⟨"abc", "d", some "abc", false⟩⟩ ⟨2, 1, 0, 0, "abc"⟩ (.ok ())
     "2026-01-01" (by decide)⟩

/-- C8 counterexample: the claim that every error raised by an engine
operation is surfaced to the user is false.  In `handleSetupToggle`, when
marking setup done with no recorded sync commit, the `get_latest_commit`
call is made and its failure is swallowed by an empty `catch` block: no
action of the handler surfaces any error. -/
theorem setup_toggle_drops_error : ¬ setupToggleErrorsSurfaced := by
  intro h
  have := h (.ok ()) (.error "network unreachable") (.ok ()) true none
    "network unreachable" rfl (by decide)
  exact absurd this (by decide)

/-- C8 (amended): every error raised by one of the sync operations the tab
itself runs — the status check, an incremental sync, a full-sync analysis,
or an analyzed execution — is surfaced to the user as a human-readable
message carrying the raw underlying cause string; only the post-sync
quick-count check and the latest-commit bookkeeping inside the manual
setup toggle fail without a user-visible message. -/
theorem main_operations_surface_errors (props : SyncTabProps) (b : Backend)
    (s : SyncTabState) (a : SyncAnalysis) (e₁ e₂ e₃ e₄ : String)
    (htok : jsTruthy props.githubToken = true)
    (h₁ : b.runSyncRes = .error e₁) (h₂ : b.analyzeRes = .error e₂)
    (h₃ : b.execRes = .error e₃) (h₄ : b.statusRes = .error e₄) :
    (runActions s (handleRunSyncActions props .incremental b)).errorMessage
      = some ("Sync failed: " ++ e₁) ∧
    (runActions s (handleRunSyncActions props .full b)).errorMessage
      = some ("Sync failed: " ++ e₂) ∧
    (runActions s (executeAnalyzedSyncActions props b a)).errorMessage
      = some ("Sync failed: " ++ e₃) ∧
    (runActions s (checkSyncStatusActions props b none)).errorMessage
      = some ("Failed to check status: " ++ e₄) := by
  obtain ⟨ar, rr, er, qr, sr⟩ := b
  cases h₁; cases h₂; cases h₃; cases h₄
  simp [handleRunSyncActions, htok, executeAnalyzedSyncActions,
    finishSyncActions, checkSyncStatusActions, runActions, applyAction]

/-- C8 amended witness: all four operations failing with distinct causes. -/
theorem main_operations_surface_errors_witness :
    jsTruthy (SyncTabProps.mk "/t" none (some "tok")).githubToken = true ∧
    (runActions (initialSyncTabState (some "tok"))
        (handleRunSyncActions ⟨"/t", none, some "tok"⟩ .incremental
          ⟨.error "e2", .error "e1", .error "e3", .error "q",
           .error "e4"⟩)).errorMessage = some ("Sync failed: " ++ "e1") ∧
    (runActions (initialSyncTabState (some "tok"))
        (checkSyncStatusActions ⟨"/t", none, some "tok"⟩
          ⟨.error "e2", .error "e1", .error "e3", .error "q",
           .error "e4"⟩ none)).errorMessage
      = some ("Failed to check status: " ++ "e4") := by
  refine ⟨by decide, ?_, ?_⟩
  · exact (main_operations_surface_errors ⟨"/t", none, some "tok"⟩
      ⟨.error "e2", .error "e1", .error "e3", .error "q", .error "e4"⟩
      (initialSyncTabState (some "tok")) ⟨[], [], [], "c"⟩ "e1" "e2" "e3" "e4"
      (by decide) rfl rfl rfl rfl).1
  · exact (main_operations_surface_errors ⟨"/t", none, some "tok"⟩
      ⟨.error "e2", .error "e1", .error "e3", .error "q", .error "e4"⟩
      (initialSyncTabState (some "tok")) ⟨[], [], [], "c"⟩ "e1" "e2" "e3" "e4"
      (by decide) rfl rfl rfl rfl).2.2.2

/-- The JavaScript `s || ""` idiom is the identity on strings. -/
theorem jsOrEmpty_eq (s : String) : jsOrEmpty s = s := by
  unfold jsOrEmpty
  split
  · rename_i h
    exact (beq_iff_eq.mp h).symm
  · rfl

/-- C10: once the app version and the installer data have both been
fetched, the blocking update-required modal — whose only control opens the
download URL — is rendered exactly when `compare_versions(currentVersion,
min_download_app_version)` returned a negative number; otherwise the
normal tab interface is rendered. -/
theorem version_gate_modal_iff_outdated (v : String) (d : InstallerData)
    (c : Int) (hv : v ≠ "") :
    (c < 0 →
      renderApp true (fetchAppInfo (.ok v) (.ok ⟨some d, none⟩) (.ok c)
          initialAppVersionState)
        = .outdatedModal v d.min_download_app_version d.downloader_app_url ∧
      appOutdatedModalControls d.downloader_app_url
        = [.openDownloadPage d.downloader_app_url]) ∧
    (0 ≤ c →
      renderApp true (fetchAppInfo (.ok v) (.ok ⟨some d, none⟩) (.ok c)
          initialAppVersionState)
        = .mainInterface) := by
  constructor
  · intro hneg
    refine ⟨?_, rfl⟩
    simp [fetchAppInfo, initialAppVersionState, jsTruthy, renderApp,
      hasInstallerData, hneg, hv, jsOrEmpty_eq]
  · intro hpos
    have : ¬ c < 0 := not_lt.mpr hpos
    simp [fetchAppInfo, initialAppVersionState, jsTruthy, renderApp,
      hasInstallerData, this]

/-- C10 witness: a fetched version below and above the required minimum. -/
theorem version_gate_modal_iff_outdated_witness :
    ("0.5" : String) ≠ "" ∧
    (renderApp true (fetchAppInfo (.ok "0.5")
        (.ok ⟨some ⟨"1.0", "22", "u"⟩, none⟩) (.ok (-1)) initialAppVersionState)
      = .outdatedModal "0.5" "1.0" "u" ∧
     renderApp true (fetchAppInfo (.ok "0.5")
        (.ok ⟨some ⟨"1.0", "22", "u"⟩, none⟩) (.ok 1) initialAppVersionState)
      = .mainInterface) :=
  ⟨by decide,
   ((version_gate_modal_iff_outdated "0.5" ⟨"1.0", "22", "u"⟩ (-1)
      (by decide)).1 (by decide)).1,
   (version_gate_modal_iff_outdated "0.5" ⟨"1.0", "22", "u"⟩ 1
      (by decide)).2 (by decide)⟩

end TexSync
